import Mathlib

/-!
Shallow embedding of the DailyInsight pipeline core
(`src/storage.py`, `src/analyzer.py`, `src/delivery/plugins/email.py`)
and proofs of the frozen claims about it.

Texts are modelled as `String` / `List Char`; sqlite TEXT comparison
(byte-wise, which on UTF-8 agrees with code-point order) is modelled by a
lexicographic comparison on code points.  JSON values (`json.loads` /
`json.dumps` payloads) are modelled by the inductive type `Json` below,
with an executable parser for the grammar accepted by Python's
`json.loads` (strict mode, which additionally accepts the constants
NaN / Infinity / -Infinity; numbers are kept as their lexemes, since no
claim compares numeric values).
-/

namespace DailyInsight

/-- Python whitespace characters stripped by `str.strip()` (ASCII range). -/
def isPySpace (c : Char) : Bool :=
  c == ' ' || c == '\t' || c == '\n' || c == '\r' || c == '\x0b' || c == '\x0c'

/-- Drop leading whitespace, as the leading half of Python `str.strip()`. -/
def dropLeadWS (l : List Char) : List Char := l.dropWhile isPySpace

/-- Python `str.strip()` on a char list: drop whitespace from both ends. -/
def stripWS (l : List Char) : List Char :=
  ((l.dropWhile isPySpace).reverse.dropWhile isPySpace).reverse

/-- Contiguous-substring relation: `IsSub p l` holds when `p` occurs
contiguously inside `l` (Python `p in l` for strings). -/
def IsSub (p l : List Char) : Prop := ∃ l₁ l₂, l = l₁ ++ p ++ l₂

/-- Executable check that `p` starts `l`. -/
def startsWith : List Char → List Char → Bool
  | [], _ => true
  | _ :: _, [] => false
  | p :: ps, c :: cs => p == c && startsWith ps cs

/-- Executable occurrence test, Python's `needle in hay` for strings. -/
def hasSub (p : List Char) : List Char → Bool
  | [] => startsWith p []
  | c :: cs => startsWith p (c :: cs) || hasSub p cs

/-- Index of the first occurrence of `p` in `l` (`str.find`), if any. -/
def findSub (p : List Char) : List Char → Option Nat
  | [] => if startsWith p [] then some 0 else none
  | c :: cs =>
    if startsWith p (c :: cs) then some 0
    else (findSub p cs).map (· + 1)

/-- Python `str.split(sep)` for a non-empty separator, with explicit fuel
(the fuel is always at least the input length plus one, which suffices). -/
def splitSepFuel (sep : List Char) : Nat → List Char → List (List Char)
  | 0, l => [l]
  | fuel + 1, l =>
    match findSub sep l with
    | none => [l]
    | some i => l.take i :: splitSepFuel sep fuel (l.drop (i + sep.length))

/-- Python `str.split(sep)` (non-empty separator). -/
def splitSep (sep l : List Char) : List (List Char) :=
  splitSepFuel sep (l.length + 1) l

/-- Lexicographic order on code points; agrees with sqlite's byte-wise
TEXT comparison on UTF-8 encoded strings. -/
def charsLe : List Char → List Char → Bool
  | [], _ => true
  | _ :: _, [] => false
  | a :: as, b :: bs =>
    if a.toNat < b.toNat then true
    else if b.toNat < a.toNat then false
    else charsLe as bs

/-- String comparison used wherever the source compares sqlite TEXT values
(for example `fetched_at >= ?`). -/
def strLe (a b : String) : Bool := charsLe a.data b.data

/-- JSON values as produced by Python's `json.loads`: numbers keep their
source lexeme, objects keep key order with Python-dict duplicate-key
semantics (later binding overwrites in place). -/
inductive Json where
  | null : Json
  | bool : Bool → Json
  | num : List Char → Json
  | str : List Char → Json
  | arr : List Json → Json
  | obj : List (List Char × Json) → Json

/-- Python-dict insertion: replace the value in place if the key exists,
otherwise append the binding. -/
def objInsert (k : List Char) (v : Json) : List (List Char × Json) → List (List Char × Json)
  | [] => [(k, v)]
  | (k₀, v₀) :: rest =>
    if k₀ = k then (k₀, v) :: rest else (k₀, v₀) :: objInsert k v rest

/-- JSON whitespace accepted between tokens by `json.loads`. -/
def isJsonWS (c : Char) : Bool :=
  c == ' ' || c == '\t' || c == '\n' || c == '\r'

/-- Skip JSON whitespace. -/
def skipWS (l : List Char) : List Char := l.dropWhile isJsonWS

/-- One decimal digit. -/
def isDigit (c : Char) : Bool := '0'.toNat ≤ c.toNat && c.toNat ≤ '9'.toNat

/-- One hexadecimal digit. -/
def isHexDigit (c : Char) : Bool :=
  isDigit c || ('a'.toNat ≤ c.toNat && c.toNat ≤ 'f'.toNat)
    || ('A'.toNat ≤ c.toNat && c.toNat ≤ 'F'.toNat)

/-- Value of a hexadecimal digit. -/
def hexVal (c : Char) : Nat :=
  if isDigit c then c.toNat - '0'.toNat
  else if 'a'.toNat ≤ c.toNat && c.toNat ≤ 'f'.toNat then c.toNat - 'a'.toNat + 10
  else c.toNat - 'A'.toNat + 10

/-- Parse the body of a JSON string after the opening quote; returns the
decoded characters and the remainder after the closing quote.  Escapes
follow `json.loads` (strict): raw control characters below 0x20 are
rejected, `\uXXXX` escapes decode a code unit and combine surrogate
pairs (an unpaired surrogate is mapped through `Char.ofNat`, which sends
invalid scalars to the null character — no claim exercises that corner).
The fuel argument only serves termination; callers pass at least the
input length plus one, which is always enough since every step consumes
at least one character. -/
def parseStrBody : Nat → List Char → Option (List Char × List Char)
  | 0, _ => none
  | _ + 1, [] => none
  | fuel + 1, c :: cs =>
    if c == '"' then some ([], cs)
    else if c == '\\' then
      match cs with
      | [] => none
      | e :: es =>
        let simple : Option Char :=
          if e == '"' then some '"'
          else if e == '\\' then some '\\'
          else if e == '/' then some '/'
          else if e == 'b' then some '\x08'
          else if e == 'f' then some '\x0c'
          else if e == 'n' then some '\n'
          else if e == 'r' then some '\r'
          else if e == 't' then some '\t'
          else none
        match simple with
        | some d =>
          match parseStrBody fuel es with
          | some (s, rest) => some (d :: s, rest)
          | none => none
        | none =>
          if e == 'u' then
            match es with
            | h₁ :: h₂ :: h₃ :: h₄ :: es₁ =>
              if isHexDigit h₁ && isHexDigit h₂ && isHexDigit h₃ && isHexDigit h₄ then
                let u := ((hexVal h₁ * 16 + hexVal h₂) * 16 + hexVal h₃) * 16 + hexVal h₄
                if 0xd800 ≤ u && u ≤ 0xdbff then
                  match es₁ with
                  | '\\' :: 'u' :: g₁ :: g₂ :: g₃ :: g₄ :: es₂ =>
                    if isHexDigit g₁ && isHexDigit g₂ && isHexDigit g₃ && isHexDigit g₄ then
                      let v := ((hexVal g₁ * 16 + hexVal g₂) * 16 + hexVal g₃) * 16 + hexVal g₄
                      if 0xdc00 ≤ v && v ≤ 0xdfff then
                        let cp := 0x10000 + (u - 0xd800) * 0x400 + (v - 0xdc00)
                        match parseStrBody fuel es₂ with
                        | some (s, rest) => some (Char.ofNat cp :: s, rest)
                        | none => none
                      else
                        match parseStrBody fuel es₁ with
                        | some (s, rest) => some (Char.ofNat u :: s, rest)
                        | none => none
                    else
                      match parseStrBody fuel es₁ with
                      | some (s, rest) => some (Char.ofNat u :: s, rest)
                      | none => none
                  | _ =>
                    match parseStrBody fuel es₁ with
                    | some (s, rest) => some (Char.ofNat u :: s, rest)
                    | none => none
                else
                  match parseStrBody fuel es₁ with
                  | some (s, rest) => some (Char.ofNat u :: s, rest)
                  | none => none
              else none
            | _ => none
          else none
    else if c.toNat < 0x20 then none
    else
      match parseStrBody fuel cs with
      | some (s, rest) => some (c :: s, rest)
      | none => none

/-- Parse one or more decimal digits; returns them and the remainder. -/
def parseDigits : List Char → Option (List Char × List Char)
  | l =>
    let ds := l.takeWhile isDigit
    if ds.isEmpty then none else some (ds, l.dropWhile isDigit)

/-- Parse a JSON number after an optional leading minus sign has been
consumed; `neg` records whether it was.  Grammar as in `json.loads`'s
number regex `(0|[1-9]digits)[.digits][eE[+-]digits]`: the maximal regex
match is consumed and the remainder is left for the surrounding grammar
(so `1.` lexes as `1` leaving `.`, and `0123` lexes as `0` leaving `123`,
exactly as CPython's scanner behaves). -/
def parseNumTail (neg : Bool) (l : List Char) : Option (List Char × List Char) :=
  match l with
  | [] => none
  | c :: cs =>
    if !(isDigit c) then none
    else
      let (intDs, r₁) :=
        if c == '0' then (['0'], cs) else (l.takeWhile isDigit, l.dropWhile isDigit)
      let (fracDs, r₂) :=
        match r₁ with
        | '.' :: r => match parseDigits r with
                      | some (ds, r') => ('.' :: ds, r')
                      | none => ([], r₁)
        | _ => ([], r₁)
      let (expDs, r₃) :=
        match r₂ with
        | e :: r =>
          if e == 'e' || e == 'E' then
            match r with
            | s :: r' =>
              if s == '+' || s == '-' then
                match parseDigits r' with
                | some (ds, r'') => ([e, s] ++ ds, r'')
                | none => ([], r₂)
              else
                match parseDigits r with
                | some (ds, r'') => (e :: ds, r'')
                | none => ([], r₂)
            | [] => ([], r₂)
          else ([], r₂)
        | [] => ([], r₂)
      let lexeme := (if neg then ['-'] else []) ++ intDs ++ fracDs ++ expDs
      some (lexeme, r₃)


/-- Consume an exact keyword. -/
def eatKeyword (kw : List Char) (l : List Char) : Option (List Char) :=
  if startsWith kw l then some (l.drop kw.length) else none

/-- Internal state of the JSON scanner: parsing one value, the member
list of an object (with the bindings accumulated so far), or the element
list of an array. -/
inductive PMode where
  | val : PMode
  | objBody : List (List Char × Json) → PMode
  | arrBody : List Json → PMode

/-- One scanner for JSON documents as accepted by CPython's `json.loads`
(strict mode).  In mode `.val` it parses one JSON value at the head of
the input (no leading whitespace; callers skip it) and returns it with
the unconsumed remainder; the other modes parse the tail of an object or
array after its opening bracket.  The fuel argument only serves
termination: every step either consumes a character or is immediately
followed by one that does, so twice the input length plus two is always
enough. -/
def parseStep : Nat → PMode → List Char → Option (Json × List Char)
  | 0, _, _ => none
  | _ + 1, _, [] => none
  | fuel + 1, PMode.val, c :: cs =>
    if c == '"' then
      match parseStrBody (cs.length + 1) cs with
      | some (s, rest) => some (Json.str s, rest)
      | none => none
    else if c == '{' then
      parseStep fuel (PMode.objBody []) (skipWS cs)
    else if c == '[' then
      parseStep fuel (PMode.arrBody []) (skipWS cs)
    else if c == 't' then
      (eatKeyword ("true".data) (c :: cs)).map ((Json.bool true, ·))
    else if c == 'f' then
      (eatKeyword ("false".data) (c :: cs)).map ((Json.bool false, ·))
    else if c == 'n' then
      (eatKeyword ("null".data) (c :: cs)).map ((Json.null, ·))
    else if c == 'N' then
      (eatKeyword ("NaN".data) (c :: cs)).map ((Json.num ("NaN".data), ·))
    else if c == 'I' then
      (eatKeyword ("Infinity".data) (c :: cs)).map ((Json.num ("Infinity".data), ·))
    else if c == '-' then
      if startsWith ("Infinity".data) cs then
        some (Json.num ("-Infinity".data), cs.drop 8)
      else
        (parseNumTail true cs).map (fun p => (Json.num p.1, p.2))
    else
      (parseNumTail false (c :: cs)).map (fun p => (Json.num p.1, p.2))
  | fuel + 1, PMode.objBody acc, c :: cs =>
    if c == '}' && acc.isEmpty then some (Json.obj [], cs)
    else if c == '"' then
      match parseStrBody (cs.length + 1) cs with
      | none => none
      | some (k, r₁) =>
        match skipWS r₁ with
        | ':' :: r₂ =>
          match parseStep fuel PMode.val (skipWS r₂) with
          | none => none
          | some (v, r₃) =>
            let acc' := objInsert k v acc
            match skipWS r₃ with
            | ',' :: r₄ =>
              match skipWS r₄ with
              | '"' :: r₅ => parseStep fuel (PMode.objBody acc') ('"' :: r₅)
              | _ => none
            | '}' :: r₄ => some (Json.obj acc', r₄)
            | _ => none
        | _ => none
    else none
  | fuel + 1, PMode.arrBody acc, c :: cs =>
    if c == ']' && acc.isEmpty then some (Json.arr [], cs)
    else
      match parseStep fuel PMode.val (c :: cs) with
      | none => none
      | some (v, r₁) =>
        match skipWS r₁ with
        | ',' :: r₂ => parseStep fuel (PMode.arrBody (acc ++ [v])) (skipWS r₂)
        | ']' :: r₂ => some (Json.arr (acc ++ [v]), r₂)
        | _ => none

/-- Python `json.loads` on a char list: parse exactly one JSON document
surrounded by optional whitespace; `none` models a raised
`json.JSONDecodeError`. -/
def jsonLoadsChars (l : List Char) : Option Json :=
  match parseStep (2 * l.length + 2) PMode.val (skipWS l) with
  | none => none
  | some (v, rest) => if (skipWS rest).isEmpty then some v else none


/-- The fenced-code-block marker looked for by `_parse_llm_response`. -/
def fenceMarker : List Char := "```".data

/-- Scan for the matching close brace, starting from the first character
of the slice (which is the first `\x7b` of the working text): track the
brace depth and report the length of the slice ending at the first
position where the depth returns to zero (`analyzer.py` lines 40-46). -/
def braceSliceLen : List Char → Int → Option Nat
  | [], _ => none
  | c :: cs, depth =>
    let d : Int := if c == '{' then depth + 1 else if c == '}' then depth - 1 else depth
    if c == '}' && d == 0 then some 1
    else (braceSliceLen cs d).map (· + 1)

/-- The balanced-brace extraction attempt of `_parse_llm_response`
(`analyzer.py` lines 38-50): locate the first open brace, scan to the
point where the depth returns to zero, and try `json.loads` on that
slice; any failure (no brace, no balanced close, or a parse error) falls
through to the caller's whole-text attempt. -/
def braceAttempt (text : List Char) : Option Json :=
  match findSub ('{' :: []) text with
  | none => none
  | some start =>
    match braceSliceLen (text.drop start) 0 with
    | none => none
    | some n => jsonLoadsChars ((text.drop start).take n)

/-- The mapping returned by `_parse_llm_response` when every parsing
attempt fails (`analyzer.py` line 54): three fixed keys, each bound to an
empty list. -/
def defaultLlmJson : Json :=
  Json.obj [("opportunities".data, Json.arr []),
            ("directions".data, Json.arr []),
            ("innovations".data, Json.arr [])]

/-- The working text selected by `_parse_llm_response` (`analyzer.py`
lines 30-37): the stripped input, replaced — when a fence marker occurs —
by the first fence fragment containing both an open brace and the word
"opportunities", stripped. -/
def llmWorkingText (s₀ : List Char) : List Char :=
  let text₀ := stripWS s₀
  if hasSub fenceMarker text₀ then
    match (splitSep fenceMarker text₀).find?
        (fun p => hasSub ('{' :: []) p && hasSub ("opportunities".data) p) with
    | some p => stripWS p
    | none => text₀
  else text₀

/-- Embedding of `_parse_llm_response` (`analyzer.py` lines 28-54) on a char list:
select the working text, try the balanced-brace slice, then the whole
working text, as JSON; fall back to `defaultLlmJson`. -/
def parseLlmResponseChars (s₀ : List Char) : Json :=
  match braceAttempt (llmWorkingText s₀) with
  | some j => j
  | none =>
    match jsonLoadsChars (llmWorkingText s₀) with
    | some j => j
    | none => defaultLlmJson

/-- Embedding of `_parse_llm_response` on a `String`. -/
def parseLlmResponse (s : String) : Json := parseLlmResponseChars s.data


/-- Totality of the code-point lexicographic comparison. -/
theorem charsLe_total : ∀ a b : List Char, charsLe a b = true ∨ charsLe b a = true
  | [], _ => Or.inl rfl
  | _ :: _, [] => Or.inr rfl
  | a :: as, b :: bs => by
    simp only [charsLe]
    rcases Nat.lt_trichotomy a.toNat b.toNat with h | h | h
    · left
      simp [h]
    · have h₁ : ¬ a.toNat < b.toNat := by omega
      have h₂ : ¬ b.toNat < a.toNat := by omega
      simpa [h₁, h₂] using charsLe_total as bs
    · right
      simp [h]

/-- Transitivity of the code-point lexicographic comparison. -/
theorem charsLe_trans : ∀ a b c : List Char,
    charsLe a b = true → charsLe b c = true → charsLe a c = true
  | [], _, _, _, _ => rfl
  | _ :: _, [], _, hab, _ => by simp [charsLe] at hab
  | _ :: _, _ :: _, [], _, hbc => by simp [charsLe] at hbc
  | a :: as, b :: bs, c :: cs, hab, hbc => by
    simp only [charsLe] at hab hbc ⊢
    rcases Nat.lt_trichotomy a.toNat b.toNat with h₁ | h₁ | h₁
    · rcases Nat.lt_trichotomy b.toNat c.toNat with h₂ | h₂ | h₂
      · simp [show a.toNat < c.toNat by omega]
      · simp [show a.toNat < c.toNat by omega]
      · rw [if_neg (by omega), if_pos (by omega)] at hbc
        simp at hbc
    · rw [if_neg (by omega), if_neg (by omega)] at hab
      rcases Nat.lt_trichotomy b.toNat c.toNat with h₂ | h₂ | h₂
      · simp [show a.toNat < c.toNat by omega]
      · rw [if_neg (by omega), if_neg (by omega)] at hbc
        rw [if_neg (by omega), if_neg (by omega)]
        exact charsLe_trans as bs cs hab hbc
      · rw [if_neg (by omega), if_pos (by omega)] at hbc
        simp at hbc
    · rw [if_neg (by omega), if_pos (by omega)] at hab
      simp at hab

/-- Descending order on a string-valued key, the relation behind every
`ORDER BY _ DESC` in `storage.py`. -/
def descBy (key : α → String) (a b : α) : Prop := strLe (key b) (key a) = true

instance (key : α → String) : DecidableRel (descBy key) := fun a b =>
  inferInstanceAs (Decidable (_ = true))

instance (key : α → String) : IsTotal α (descBy key) :=
  ⟨fun a b => charsLe_total (key b).data (key a).data⟩

instance (key : α → String) : IsTrans α (descBy key) :=
  ⟨fun _ _ _ hab hbc => charsLe_trans _ _ _ hbc hab⟩

/-- Python truthiness of an optional string (`None` and the empty string
are falsy), as used in `api_key or os.getenv(...)`, `if since_iso:`,
`if not api_key:` and friends. -/
def pyTruthyStr : Option String → Bool
  | none => false
  | some s => !(s == "")

/-- Python `a or b` on optional strings: keep `a` when truthy, else `b`. -/
def pyOrStr (a b : Option String) : Option String :=
  if pyTruthyStr a then a else b

/-- One row of the `raw_items` table (`storage.py` lines 41-51 and the
`RawItem` dataclass).  `id` is always present on stored rows (sqlite
assigns it), so it is a plain `Nat` here; timestamps are ISO-8601 text
exactly as stored. -/
structure RawItem where
  id : Nat
  title : String
  url : String
  summary : String
  source : String
  fetched_at : String
deriving DecidableEq

/-- The `raw_items` table state: the rows in insertion order plus the
next `AUTOINCREMENT` id. -/
structure RawStore where
  nextId : Nat
  rows : List RawItem

/-- A freshly created table (`AUTOINCREMENT` ids start at 1). -/
def RawStore.empty : RawStore := ⟨1, []⟩

/-- Embedding of `RawStore.insert` (`storage.py` lines 63-75): the `UNIQUE(source, url)`
constraint makes the INSERT raise `IntegrityError` when the pair already
exists, which the method turns into `None` with no write; otherwise one
row is persisted and its fresh id returned.  The fetch timestamp, taken
from the system clock in the source, is an explicit argument here. -/
def RawStore.insert (s : RawStore) (title url summary source fetched_at : String) :
    Option Nat × RawStore :=
  if s.rows.any (fun r => r.source == source && r.url == url) then
    (none, s)
  else
    (some s.nextId,
     ⟨s.nextId + 1, s.rows ++ [⟨s.nextId, title, url, summary, source, fetched_at⟩]⟩)

/-- Embedding of `RawStore.get_by_id` (`storage.py` lines 90-103): first row with the
given id, if any. -/
def RawStore.get_by_id (s : RawStore) (id : Nat) : Option RawItem :=
  s.rows.find? (fun r => r.id == id)

/-- Embedding of `RawStore.list_since` (`storage.py` lines 105-129):
`SELECT * FROM raw_items [WHERE fetched_at >= ?] ORDER BY fetched_at DESC
LIMIT ?`.  A falsy `since_iso` (Python `None` or the empty string) takes
the unfiltered branch.  Rows tied on `fetched_at` keep insertion order
(stable sort), matching sqlite's scan order for this schema. -/
def RawStore.list_since (s : RawStore) (since_iso : Option String) (limit : Nat) :
    List RawItem :=
  let qualifying :=
    if pyTruthyStr since_iso then
      s.rows.filter (fun r => strLe (since_iso.getD "") r.fetched_at)
    else s.rows
  (qualifying.insertionSort (descBy RawItem.fetched_at)).take limit

/-- One row of the `insights` table (`storage.py` lines 134-142 and the
`Insight` dataclass).  `data` is stored as JSON text in the source
(`json.dumps` on insert, `json.loads` on read); it is kept as the parsed
value here, which the dump/load round-trip preserves. -/
structure Insight where
  id : Nat
  raw_item_id : Nat
  data : Json
  analyzed_at : String

/-- The `insights` table state. -/
structure InsightStore where
  nextId : Nat
  rows : List Insight

/-- A freshly created table. -/
def InsightStore.empty : InsightStore := ⟨1, []⟩

/-- Embedding of `InsightStore.insert` (`storage.py` lines 154-162): always persists
one row and returns its fresh id.  The table declares
`FOREIGN KEY (raw_item_id) REFERENCES raw_items(id)`, but sqlite only
enforces foreign keys when `PRAGMA foreign_keys` is switched on, which
the source never does, so no referential check happens and the insert
cannot fail.  The timestamp is an explicit argument. -/
def InsightStore.insert (s : InsightStore) (raw_item_id : Nat) (data : Json)
    (analyzed_at : String) : Nat × InsightStore :=
  (s.nextId, ⟨s.nextId + 1, s.rows ++ [⟨s.nextId, raw_item_id, data, analyzed_at⟩]⟩)

/-- Embedding of `InsightStore.get_analyzed_raw_item_ids` (`storage.py` lines 164-168):
`SELECT DISTINCT raw_item_id FROM insights`, collected into a set; the
embedding keeps the deduplicated list, used only through membership. -/
def InsightStore.get_analyzed_raw_item_ids (s : InsightStore) : List Nat :=
  (s.rows.map Insight.raw_item_id).dedup

/-- Embedding of `InsightStore.get_by_id` (`storage.py` lines 170-181). -/
def InsightStore.get_by_id (s : InsightStore) (id : Nat) : Option Insight :=
  s.rows.find? (fun r => r.id == id)

/-- Embedding of `InsightStore.list_since` (`storage.py` lines 183-204), same shape as
`RawStore.list_since` but keyed on `analyzed_at`. -/
def InsightStore.list_since (s : InsightStore) (since_iso : Option String) (limit : Nat) :
    List Insight :=
  let qualifying :=
    if pyTruthyStr since_iso then
      s.rows.filter (fun r => strLe (since_iso.getD "") r.analyzed_at)
    else s.rows
  (qualifying.insertionSort (descBy Insight.analyzed_at)).take limit

/-- Python truthiness of a JSON-decoded value (`bool(v)`): `None`, `False`,
numeric zero, and empty strings/lists/dicts are falsy.  A numeric lexeme
is zero exactly when it has digits and they are all `0` (`NaN` and
`Infinity` have no digits and are truthy). -/
def pyTruthyJson : Json → Bool
  | Json.null => false
  | Json.bool b => b
  | Json.num lex =>
    let ds := lex.filter isDigit
    if ds.isEmpty then true else !(ds.all (· == '0'))
  | Json.str s => !s.isEmpty
  | Json.arr xs => !xs.isEmpty
  | Json.obj kvs => !kvs.isEmpty

/-- The external LLM call made by `analyze_one` (`analyzer.py` lines
68-76), an excluded collaborator: from the prompt inputs
(title, url, truncated summary) to the returned message content, with
`none` standing for a raised exception (network or API failure). -/
def LlmRespond : Type := String → String → String → Option String

/-- Embedding of `analyze_one` (`analyzer.py` lines 57-82): truncate the summary to
`summary_max_chars`, call the LLM, parse its response, and return the
triple `(out.get(k) or [] for k in opportunities, directions,
innovations)`.  When `_parse_llm_response` yields a non-dict (the parsed
JSON document was a list or scalar), `out.get` raises `AttributeError`,
which surfaces as a per-item failure: that is the `none` of the final
match.  A falsy looked-up value is replaced by the empty list, as
`or []` does. -/
def analyze_one (respond : LlmRespond) (title url summary : String)
    (summary_max_chars : Nat) : Option (Json × Json × Json) :=
  match respond title url (String.mk (summary.data.take summary_max_chars)) with
  | none => none
  | some content =>
    match parseLlmResponseChars (stripWS content.data) with
    | Json.obj kvs =>
      let get := fun (k : String) =>
        match (kvs.find? (fun kv => kv.1 == k.data)).map Prod.snd with
        | some v => if pyTruthyJson v then v else Json.arr []
        | none => Json.arr []
      some (get "opportunities", get "directions", get "innovations")
    | _ => none

/-- The call at `analyzer.py` line 113,
`insight_store.insert(item.id, opps, dirs, inns)`: it passes four
positional arguments to `InsightStore.insert(self, raw_item_id, data)`,
which takes two, so Python raises `TypeError` at the call site before
`insert`'s body can run, and nothing is written.  The per-item handler
at lines 116-117 catches it.  The embedding therefore returns `none`
(the raising outcome) unconditionally; a successful call would have
returned the fresh id and the extended store. -/
def insertCallLine113 (_store : InsightStore) (_raw_item_id : Nat)
    (_opps _dirs _inns : Json) : Option (Nat × InsightStore) :=
  none

/-- Observable outcome of one `run_analyze` invocation: its return value
(`count`), the final insight store, and the ids of the raw items for
which the analysis call was attempted, in processing order. -/
structure RunAnalyzeOut where
  count : Nat
  store : InsightStore
  invoked : List Nat

/-- One iteration of `run_analyze`'s per-item loop (`analyzer.py` lines
108-117): attempt the analysis call, and on its success reach the
line-113 insert call; any raised step — the analysis call or the
`TypeError` modelled by `insertCallLine113` — leaves count and store
untouched and moves on. -/
def analyzeLoopStep (respond : LlmRespond) (summary_max_chars : Nat)
    (acc : RunAnalyzeOut) (item : RawItem) : RunAnalyzeOut :=
  let acc' : RunAnalyzeOut := ⟨acc.count, acc.store, acc.invoked ++ [item.id]⟩
  match analyze_one respond item.title item.url item.summary summary_max_chars with
  | none => acc'
  | some (opps, dirs, inns) =>
    match insertCallLine113 acc'.store item.id opps dirs inns with
    | none => acc'
    | some (_, store') => ⟨acc'.count + 1, store', acc'.invoked⟩

/-- Embedding of `run_analyze` (`analyzer.py` lines 85-118).  The effective API key is
`api_key or os.getenv("OPENAI_API_KEY")`; when falsy the function logs
and returns 0 without touching either store.  Otherwise it loads the
analyzed-id set, lists the `2 * max_items_per_run` most recent raw
items, keeps the first `max_items_per_run` whose id is not yet analyzed
(every stored id is non-`None`, so the `r.id is not None` guard always
passes), and runs the per-item loop: a failure inside the `try` block —
including the `TypeError` from `insertCallLine113` — is logged and the
loop continues with the next item. -/
def run_analyze (raw_store : RawStore) (insight_store : InsightStore)
    (respond : LlmRespond) (api_key env_api_key : Option String)
    (max_items_per_run summary_max_chars : Nat) : RunAnalyzeOut :=
  if !(pyTruthyStr (pyOrStr api_key env_api_key)) then
    ⟨0, insight_store, []⟩
  else
    let analyzed_ids := insight_store.get_analyzed_raw_item_ids
    let raw_items := raw_store.list_since none (max_items_per_run * 2)
    let to_process :=
      (raw_items.filter (fun r => !(analyzed_ids.contains r.id))).take max_items_per_run
    to_process.foldl (analyzeLoopStep respond summary_max_chars) ⟨0, insight_store, []⟩

/-- Join a list of strings with a separator (Python `sep.join`). -/
def joinSep (sep : String) : List String → String
  | [] => ""
  | [x] => x
  | x :: xs => x ++ sep ++ joinSep sep xs

/-- Python `str.replace` for single characters. -/
def replaceChar (a b : Char) (l : List Char) : List Char :=
  l.map (fun c => if c == a then b else c)

mutual
/-- Python `repr()` of a JSON-decoded value, as it appears when `str()`
is applied to a container's elements (string quoting/escaping corners
are approximated by plain single quotes; numeric lexemes are kept as
written — no claim renders a number or a quote-bearing string). -/
def pyRepr : Json → String
  | Json.null => "None"
  | Json.bool true => "True"
  | Json.bool false => "False"
  | Json.num lex => String.mk lex
  | Json.str s => "'" ++ String.mk s ++ "'"
  | Json.arr xs => "[" ++ joinSep ", " (pyReprList xs) ++ "]"
  | Json.obj kvs => "\x7b" ++ joinSep ", " (pyReprKVs kvs) ++ "\x7d"

/-- Python `repr()` of each element of a list. -/
def pyReprList : List Json → List String
  | [] => []
  | x :: xs => pyRepr x :: pyReprList xs

/-- Python `repr()` of each `key: value` member of a dict. -/
def pyReprKVs : List (List Char × Json) → List String
  | [] => []
  | (k, v) :: kvs => ("'" ++ String.mk k ++ "': " ++ pyRepr v) :: pyReprKVs kvs
end

/-- Python `str()` of a JSON-decoded value: strings render bare, every
other value as its `repr()`. -/
def pyStr : Json → String
  | Json.str s => String.mk s
  | v => pyRepr v

mutual
/-- Embedding of `_format_value` (`email.py` lines 26-34): lists join their elements'
`str()` with commas (empty list renders as a dash), strings render as-is
(empty string as a dash), dicts render as semicolon-joined `key: value`
pairs (empty dict as a dash), `None` as a dash, any other scalar via
`str()`. -/
def format_value : Json → String
  | Json.arr v => if v.isEmpty then "-" else joinSep ", " (pyReprList' v)
  | Json.str s => if s.isEmpty then "-" else String.mk s
  | Json.obj kvs =>
    let parts := joinSep "; " (formatKVs kvs)
    if parts == "" then "-" else parts
  | Json.null => "-"
  | v => pyStr v

/-- Python `str()` of each list element inside `_format_value`'s list branch. -/
def pyReprList' : List Json → List String
  | [] => []
  | x :: xs => pyStr x :: pyReprList' xs

/-- The `f"\x7bk\x7d: \x7b_format_value(val)\x7d"` members of
`_format_value`'s dict branch. -/
def formatKVs : List (List Char × Json) → List String
  | [] => []
  | (k, v) :: kvs => (String.mk k ++ ": " ++ format_value v) :: formatKVs kvs
end

/-- The member list iterated by `_build_body`:
`data = getattr(ins, "data", \x7b\x7d) or \x7b\x7d` followed by `.items()`.
A stored payload that decodes to a non-dict would make `.items()` raise
inside `_build_body` (outside any try block); no claim reaches that
path, and the embedding renders no members for it. -/
def dataKVs : Json → List (List Char × Json)
  | Json.obj kvs => kvs
  | _ => []

/-- The per-insight lines of `_build_body` (`email.py` lines 40-50),
starting the enumeration at `i`. -/
def bodyLines (raw_store : Option RawStore) : Nat → List Insight → List String
  | _, [] => []
  | i, ins :: rest =>
    (("## 条目 " ++ toString i ++ "\n")
      :: (dataKVs ins.data).map (fun kv =>
            "- **" ++ String.mk (stripWS (replaceChar '_' ' ' kv.1)) ++ "**: "
              ++ format_value kv.2 ++ "\n")
      ++ (match raw_store with
          | some rs =>
            if ins.raw_item_id != 0 then
              match rs.get_by_id ins.raw_item_id with
              | some raw => ["- **链接**: " ++ raw.url ++ "\n"]
              | none => []
            else []
          | none => [])
      ++ [""])
    ++ bodyLines raw_store (i + 1) rest

/-- Embedding of `_build_body` (`email.py` lines 37-51): header line, one block per
insight (enumerated from 1), all joined with newlines. -/
def build_body (insights : List Insight) (raw_store : Option RawStore) : String :=
  joinSep "\n" (("# AI 洞察 日报\n") :: bodyLines raw_store 1 insights)

/-- The `email_to` configuration value, which may be a delimited string,
a list of addresses, or absent (`None`). -/
inductive RecipSetting where
  | absent : RecipSetting
  | str : String → RecipSetting
  | list : List String → RecipSetting

/-- Embedding of `_parse_recipients` (`email.py` lines 17-23): a falsy value gives no
recipients; a list keeps the stripped elements that are non-empty before
and after stripping; a string splits on commas and keeps the stripped
fragments that are non-empty. -/
def parse_recipients : RecipSetting → List String
  | RecipSetting.absent => []
  | RecipSetting.str s =>
    if s == "" then []
    else
      ((splitSep (',' :: []) s.data).filter
          (fun p => !(stripWS p).isEmpty)).map (fun p => String.mk (stripWS p))
  | RecipSetting.list l =>
    if l.isEmpty then []
    else
      (l.filter (fun x => !(x == "") && !(stripWS x.data).isEmpty)).map
        (fun x => String.mk (stripWS x.data))

/-- The SMTP transport, an excluded collaborator: whether connecting
(the `SMTP`/`SMTP_SSL` constructor and context entry), `starttls()`,
and `login()` succeed, and whether `sendmail` to a given recipient
succeeds — `false` models a raised `smtplib` exception. -/
structure Transport where
  connectOk : Bool
  startTlsOk : Bool
  loginOk : Bool
  sendOk : String → Bool

/-- One message handed to `sendmail`: the rendered subject and body, the
envelope sender, and the single recipient of this send. -/
structure SentMsg where
  subject : String
  sender : String
  recipient : String
  body : String
deriving DecidableEq

/-- Observable outcome of `EmailDeliveryPlugin.deliver`: the returned
boolean, the sends attempted in order (including the failing one, whose
`sendmail` call was reached), and whether an SMTP connection was
attempted at all. -/
structure DeliverOut where
  ok : Bool
  sent : List SentMsg
  connectAttempted : Bool

/-- The per-recipient send loop (`email.py` lines 94-101 and 106-113):
one message per recipient, identical except for the recipient; the first
raised send aborts the remainder. -/
def sendLoop (ts : Transport) (subject sender body : String) :
    List String → Bool × List SentMsg
  | [] => (true, [])
  | rcpt :: rest =>
    let m : SentMsg := ⟨subject, sender, rcpt, body⟩
    if ts.sendOk rcpt then
      let r := sendLoop ts subject sender body rest
      (r.1, m :: r.2)
    else (false, [m])

/-- Environment variables read by the plugin (`os.getenv`). -/
structure EmailEnv where
  smtp_host : Option String
  smtp_port : Option String
  smtp_user : Option String
  smtp_password : Option String
  smtp_from : Option String
  email_to : Option String

/-- The plugin's configuration mapping: `config.get(key)` yields `none`
for a missing key; `subject_prefix` and `max_insights` have in-code
defaults.  `max_insights` and a present `smtp_port` are modelled as the
parsed integers (a non-numeric string would make the uncaught `int()`
call raise, a path outside every claim). -/
structure EmailConfig where
  smtp_host : Option String
  smtp_port : Option Nat
  smtp_user : Option String
  smtp_password : Option String
  smtp_from : Option String
  email_to : RecipSetting
  subject_prefix : Option String
  max_insights : Option Nat

/-- Digits of a numeral to its value. -/
def digitsToNat (l : List Char) : Nat :=
  l.foldl (fun n c => n * 10 + (c.toNat - '0'.toNat)) 0

/-- Python `int()` on a trimmed decimal string, `none` for a raised
`ValueError`. -/
def pyIntOfStr (s : String) : Option Nat :=
  let t := stripWS s.data
  if !t.isEmpty && t.all isDigit then some (digitsToNat t) else none

/-- The recipient list used by `deliver`:
`os.getenv("EMAIL_TO") or config.get("email_to")` run through
`_parse_recipients`. -/
def effectiveRecipients (env : EmailEnv) (cfg : EmailConfig) : List String :=
  parse_recipients
    (if pyTruthyStr env.email_to then RecipSetting.str ((env.email_to).getD "")
     else cfg.email_to)

/-- The insights read by `deliver`:
`insight_store.list_since(limit=max_insights)`. -/
def effectiveInsights (cfg : EmailConfig) (insight_store : InsightStore) : List Insight :=
  insight_store.list_since none ((cfg.max_insights).getD 100)

/-- The subject rendered by `deliver`:
`f"\x7bsubject_prefix\x7d 日报 \x7blen(insights)\x7d 条"`. -/
def effectiveSubject (cfg : EmailConfig) (insight_store : InsightStore) : String :=
  Option.getD cfg.subject_prefix "[AI 洞察]" ++ " 日报 "
    ++ toString (effectiveInsights cfg insight_store).length ++ " 条"

/-- The envelope sender used by `deliver`:
`os.getenv("SMTP_FROM") or config.get("smtp_from") or smtp_user` (never
consulted while falsy, since a falsy `smtp_user` aborts earlier). -/
def effectiveSender (env : EmailEnv) (cfg : EmailConfig) : String :=
  (pyOrStr (pyOrStr env.smtp_from cfg.smtp_from)
    (pyOrStr env.smtp_user cfg.smtp_user)).getD ""

/-- The body rendered once by `deliver` and sent to every recipient. -/
def effectiveBody (cfg : EmailConfig) (insight_store : InsightStore)
    (raw_store : Option RawStore) : String :=
  build_body (effectiveInsights cfg insight_store) raw_store

/-- Embedding of `EmailDeliveryPlugin.deliver` (`email.py` lines 62-117).  Each
setting resolves as `os.getenv(...) or config.get(...)`; the port is
`int(os.getenv("SMTP_PORT", "587") or config.get("smtp_port", "587"))`
(so a set, non-empty environment port shadows the config).  Missing
host/user/password or an empty recipient list returns `false` before
any read; an empty insight listing returns `true` without touching the
transport; otherwise the body and subject are rendered once and one
message is sent per recipient over the connected, upgraded (unless port
465), logged-in transport, any raised transport step yielding `false`
via the enclosing handler. -/
def EmailDeliveryPlugin.deliver (env : EmailEnv) (insight_store : InsightStore)
    (cfg : EmailConfig) (raw_store : Option RawStore) (ts : Transport) : DeliverOut :=
  let smtp_host := pyOrStr env.smtp_host cfg.smtp_host
  let smtp_user := pyOrStr env.smtp_user cfg.smtp_user
  let smtp_password := pyOrStr env.smtp_password cfg.smtp_password
  let smtp_port :=
    let envPort := (env.smtp_port).getD "587"
    if envPort == "" then (cfg.smtp_port).getD 587
    else (pyIntOfStr envPort).getD 0
  let recipients := effectiveRecipients env cfg
  if !(pyTruthyStr smtp_host && pyTruthyStr smtp_user && pyTruthyStr smtp_password)
      || recipients.isEmpty then
    ⟨false, [], false⟩
  else
    let insights := effectiveInsights cfg insight_store
    if insights.isEmpty then ⟨true, [], false⟩
    else
      if !ts.connectOk then ⟨false, [], true⟩
      else if smtp_port != 465 && !ts.startTlsOk then ⟨false, [], true⟩
      else if !ts.loginOk then ⟨false, [], true⟩
      else
        let r := sendLoop ts (effectiveSubject cfg insight_store)
          (effectiveSender env cfg) (effectiveBody cfg insight_store raw_store) recipients
        ⟨r.1, r.2, true⟩

/-! ### Claim theorems -/

/-- The round-trip payload of claim C4, as parsed JSON. -/
def c4Payload : Json :=
  Json.obj [("a".data, Json.arr [Json.str ("x".data), Json.str ("y".data)]),
            ("b".data, Json.str ("z".data))]

/-- C4: applying the response-extraction function to the bare JSON text
of the payload, to the payload wrapped in a fenced code block with a
leading language tag, and to the payload surrounded by explanatory
prose, yields the identical mapping in all three cases. -/
theorem C4_extraction_round_trip :
    parseLlmResponse "\x7b\"a\": [\"x\",\"y\"], \"b\": \"z\"\x7d" = c4Payload
    ∧ parseLlmResponse "```json\n\x7b\"a\": [\"x\",\"y\"], \"b\": \"z\"\x7d\n```" = c4Payload
    ∧ parseLlmResponse
        "Here is the result:\n\x7b\"a\": [\"x\",\"y\"], \"b\": \"z\"\x7d\nHope this helps."
        = c4Payload :=
  ⟨rfl, rfl, rfl⟩

/-- C8: with the API key neither passed as an argument nor present in
the environment, `run_analyze` returns 0, leaves the insight store
untouched, and never reaches the per-item analysis loop. -/
theorem C8_missing_api_key_skips_analysis (raw_store : RawStore)
    (insight_store : InsightStore) (respond : LlmRespond)
    (max_items_per_run summary_max_chars : Nat) :
    (run_analyze raw_store insight_store respond none none
        max_items_per_run summary_max_chars).count = 0
    ∧ (run_analyze raw_store insight_store respond none none
        max_items_per_run summary_max_chars).store = insight_store
    ∧ (run_analyze raw_store insight_store respond none none
        max_items_per_run summary_max_chars).invoked = [] :=
  ⟨rfl, rfl, rfl⟩

/-- C9: `InsightStore.insert` performs no referential-integrity check:
even when no row of any raw store carries the referenced id, the insert
succeeds, returns the fresh identifier, and appends exactly the one new
row. -/
theorem C9_insight_insert_unchecked (s : InsightStore) (raw_store : RawStore)
    (rid : Nat) (data : Json) (ts : String)
    (hnoref : ∀ r ∈ raw_store.rows, r.id ≠ rid) :
    (s.insert rid data ts).1 = s.nextId
    ∧ (s.insert rid data ts).2.rows = s.rows ++ [⟨s.nextId, rid, data, ts⟩]
    ∧ (s.insert rid data ts).2.nextId = s.nextId + 1 :=
  ⟨rfl, rfl, rfl⟩

/-- Witness for C9 at a concrete input: the referenced id 7 exists in no
raw store row (the raw store is empty), yet the insert succeeds and
persists the row. -/
theorem C9_insight_insert_unchecked_witness :
    (InsightStore.empty.insert 7 (Json.obj []) "2024-01-01T00:00:00Z").1 = 1
    ∧ (InsightStore.empty.insert 7 (Json.obj []) "2024-01-01T00:00:00Z").2.rows
      = [⟨1, 7, Json.obj [], "2024-01-01T00:00:00Z"⟩]
    ∧ (InsightStore.empty.insert 7 (Json.obj []) "2024-01-01T00:00:00Z").2.nextId = 2 :=
  C9_insight_insert_unchecked InsightStore.empty RawStore.empty 7 (Json.obj [])
    "2024-01-01T00:00:00Z" (by intro r hr; simp [RawStore.empty] at hr)

/-- The raw store of the C1 scenario (the repository's own
`test_run_analyze_mock` setup): one raw item, id 1. -/
def c1RawStore : RawStore :=
  (RawStore.empty.insert "Test Paper" "http://arxiv.org/abs/2401.0" "Abstract here"
    "arxiv" "2024-01-01T00:00:00Z").2

/-- The C1 analysis function: the LLM call succeeds and returns a clean
JSON object, as the mocked client in `test_analyzer.py` does. -/
def c1Respond : LlmRespond := fun _ _ _ =>
  some "\x7b\"opportunities\":[\"o1\"],\"directions\":[\"d1\"],\"innovations\":[\"i1\"]\x7d"

set_option maxRecDepth 4000 in
/-- C1 (divergence witness): the external analysis function succeeds on
the one selected raw item — `analyze_one` yields a value — yet
`run_analyze` writes nothing to the insight store and returns 0, because
the four-argument call `insight_store.insert(item.id, opps, dirs, inns)`
at `analyzer.py` line 113 raises `TypeError` against the two-parameter
`InsightStore.insert`, and the per-item handler swallows it.  The
repository's own test asserts the return is 1 with one insight stored. -/
theorem C1_successful_analysis_is_dropped :
    (analyze_one c1Respond "Test Paper" "http://arxiv.org/abs/2401.0" "Abstract here"
        500).isSome = true
    ∧ run_analyze c1RawStore InsightStore.empty c1Respond (some "test-key") none 5 500
      = ⟨0, InsightStore.empty, [1]⟩ :=
  ⟨rfl, rfl⟩

/-- Each iteration of the analysis loop leaves the count and the store
unchanged and appends the processed item's id to the invocation trace:
the analysis attempt either raises, or its successful result is lost to
the line-113 `TypeError`. -/
theorem analyzeLoopStep_spec (respond : LlmRespond) (k : Nat) (acc : RunAnalyzeOut)
    (item : RawItem) :
    analyzeLoopStep respond k acc item = ⟨acc.count, acc.store, acc.invoked ++ [item.id]⟩ := by
  unfold analyzeLoopStep
  cases analyze_one respond item.title item.url item.summary k with
  | none => rfl
  | some v =>
    rcases v with ⟨o, d, i⟩
    rfl

/-- The whole analysis loop leaves count and store unchanged and records
exactly the processed items' ids, in order. -/
theorem analyzeFold_spec (respond : LlmRespond) (k : Nat) :
    ∀ (items : List RawItem) (acc : RunAnalyzeOut),
    items.foldl (analyzeLoopStep respond k) acc
      = ⟨acc.count, acc.store, acc.invoked ++ items.map RawItem.id⟩
  | [], acc => by simp
  | item :: items, acc => by
    rw [List.foldl_cons, analyzeLoopStep_spec, analyzeFold_spec respond k items]
    simp

/-- C5: under sequential invocations, a raw item is referenced by at
most one insight.  Concretely for one invocation: `run_analyze` only
invokes analysis on items whose id is not in the analyzed-id set, the
number of insights referencing any given raw item is unchanged by the
run, and in particular a count that was at most 1 stays at most 1 (so
any number of sequential invocations preserves it). -/
theorem C5_at_most_once_analysis (raw_store : RawStore) (insight_store : InsightStore)
    (respond : LlmRespond) (api_key env_api_key : Option String)
    (max_items_per_run summary_max_chars : Nat) (rid : Nat) :
    (∀ id ∈ (run_analyze raw_store insight_store respond api_key env_api_key
        max_items_per_run summary_max_chars).invoked,
      id ∉ insight_store.get_analyzed_raw_item_ids)
    ∧ ((run_analyze raw_store insight_store respond api_key env_api_key
        max_items_per_run summary_max_chars).store.rows.filter
          (fun r => r.raw_item_id == rid)).length
      = (insight_store.rows.filter (fun r => r.raw_item_id == rid)).length
    ∧ ((insight_store.rows.filter (fun r => r.raw_item_id == rid)).length ≤ 1 →
       ((run_analyze raw_store insight_store respond api_key env_api_key
          max_items_per_run summary_max_chars).store.rows.filter
            (fun r => r.raw_item_id == rid)).length ≤ 1) := by
  have hmain :
      (run_analyze raw_store insight_store respond api_key env_api_key
          max_items_per_run summary_max_chars).store = insight_store
      ∧ ∀ id ∈ (run_analyze raw_store insight_store respond api_key env_api_key
          max_items_per_run summary_max_chars).invoked,
        id ∉ insight_store.get_analyzed_raw_item_ids := by
    unfold run_analyze
    by_cases h : (!(pyTruthyStr (pyOrStr api_key env_api_key))) = true
    · simp [h]
    · simp only [h, Bool.false_eq_true, if_false, analyzeFold_spec]
      refine ⟨trivial, ?_⟩
      intro id hid
      simp only [List.nil_append, List.mem_map] at hid
      obtain ⟨r, hr, hrid⟩ := hid
      have hr₁ := List.mem_of_mem_take hr
      have hr₂ := (List.mem_filter.1 hr₁).2
      simp at hr₂
      rw [← hrid]
      exact hr₂
  refine ⟨hmain.2, ?_, ?_⟩
  · rw [hmain.1]
  · intro hle
    rw [hmain.1]
    exact hle

/-- The insight store of the C5 witness scenario: one insight already
referencing raw item 1. -/
def c5Istore : InsightStore :=
  (InsightStore.empty.insert 1 (Json.obj []) "2024-01-02T00:00:00Z").2

/-- The raw store of the C5 witness scenario: one raw item, id 1,
already analyzed in `c5Istore`. -/
def c5RawStore : RawStore :=
  (RawStore.empty.insert "T" "http://x/1" "S" "arxiv" "2024-01-01T00:00:00Z").2

/-- The C5 witness analysis function (always succeeds). -/
def c5Respond : LlmRespond := fun _ _ _ => some "\x7b\x7d"

/-- Witness for C5 at a concrete input: with raw item 1 already analyzed
once, a further `run_analyze` invocation keeps its insight count at 1,
and the already-analyzed id 1 is never invoked again. -/
theorem C5_at_most_once_analysis_witness :
    ((run_analyze c5RawStore c5Istore c5Respond (some "key") none 5 500).store.rows.filter
        (fun r => r.raw_item_id == 1)).length ≤ 1
    ∧ (1 ∈ (run_analyze c5RawStore c5Istore c5Respond (some "key") none 5 500).invoked →
        False) := by
  refine ⟨(C5_at_most_once_analysis c5RawStore c5Istore c5Respond (some "key") none 5 500
      1).2.2 (by decide), ?_⟩
  intro hmem
  exact (C5_at_most_once_analysis c5RawStore c5Istore c5Respond (some "key") none 5 500
      1).1 1 hmem (by decide)

/-- The dedup key of a stored raw item: its (source, url) pair. -/
def pairOf (r : RawItem) : String × String := (r.source, r.url)

/-- One `RawStore.insert` call's arguments. -/
structure InsertCall where
  title : String
  url : String
  summary : String
  source : String
  fetched_at : String

/-- The dedup key of an insert call. -/
def callPair (c : InsertCall) : String × String := (c.source, c.url)

/-- Perform one insert call, keeping only the store (the result value is
examined separately). -/
def insertStep (s : RawStore) (c : InsertCall) : RawStore :=
  (s.insert c.title c.url c.summary c.source c.fetched_at).2

/-- Perform a sequence of insert calls left to right. -/
def applyInserts (s : RawStore) (calls : List InsertCall) : RawStore :=
  calls.foldl insertStep s

/-- The duplicate check inside `RawStore.insert` fires exactly when the
(source, url) pair is already stored. -/
theorem insert_dup_iff (s : RawStore) (src u : String) :
    (s.rows.any (fun r => r.source == src && r.url == u)) = true
      ↔ (src, u) ∈ s.rows.map pairOf := by
  simp [List.any_eq_true, List.mem_map, pairOf, Prod.ext_iff]

/-- Effect of one insert call on the stored dedup pairs: a duplicate
changes nothing, a fresh pair is appended. -/
theorem insertStep_pairs (s : RawStore) (c : InsertCall) :
    (insertStep s c).rows.map pairOf
      = if callPair c ∈ s.rows.map pairOf then s.rows.map pairOf
        else s.rows.map pairOf ++ [callPair c] := by
  unfold insertStep RawStore.insert
  by_cases hd : (s.rows.any (fun r => r.source == c.source && r.url == c.url)) = true
  · have hmem : callPair c ∈ s.rows.map pairOf := (insert_dup_iff s c.source c.url).1 hd
    rw [if_pos hd, if_pos hmem]
  · have hmem : callPair c ∉ s.rows.map pairOf := fun hm =>
      hd ((insert_dup_iff s c.source c.url).2 hm)
    rw [if_neg hd, if_neg hmem]
    simp [pairOf, callPair]

/-- Pair membership and pair distinctness across a whole sequence of
insert calls. -/
theorem applyInserts_spec : ∀ (calls : List InsertCall) (s : RawStore),
    (∀ p, p ∈ (applyInserts s calls).rows.map pairOf
        ↔ p ∈ s.rows.map pairOf ∨ p ∈ calls.map callPair)
    ∧ ((s.rows.map pairOf).Nodup → ((applyInserts s calls).rows.map pairOf).Nodup)
  | [], s => by simp [applyInserts]
  | c :: calls, s => by
    have ih := applyInserts_spec calls (insertStep s c)
    have hstep : applyInserts s (c :: calls) = applyInserts (insertStep s c) calls := rfl
    constructor
    · intro p
      rw [hstep, ih.1 p, insertStep_pairs]
      by_cases hd : callPair c ∈ s.rows.map pairOf
      · rw [if_pos hd]
        simp only [List.map_cons, List.mem_cons]
        constructor
        · exact fun h => h.imp id Or.inr
        · rintro (h | h | h)
          · exact Or.inl h
          · exact Or.inl (h ▸ hd)
          · exact Or.inr h
      · rw [if_neg hd]
        simp only [List.mem_append, List.mem_singleton, List.map_cons, List.mem_cons]
        tauto
    · intro hnd
      rw [hstep]
      refine ih.2 ?_
      rw [insertStep_pairs]
      by_cases hd : callPair c ∈ s.rows.map pairOf
      · rw [if_pos hd]
        exact hnd
      · rw [if_neg hd]
        simp [List.nodup_append, hnd, hd]

/-- C2: starting from an empty store, any sequence of insert calls —
with repeated (source, url) pairs allowed — leaves exactly one row per
distinct pair that occurs in the sequence (the stored pairs are distinct
and are precisely the pairs of the calls); moreover any single insert
whose pair is already present returns the duplicate signal `None` and
leaves the store unchanged, while an insert of a fresh pair returns the
next identifier and appends exactly one row. -/
theorem C2_raw_insert_dedup (calls : List InsertCall) :
    (((applyInserts RawStore.empty calls).rows.map pairOf).Nodup
      ∧ ∀ p, p ∈ (applyInserts RawStore.empty calls).rows.map pairOf
          ↔ p ∈ calls.map callPair)
    ∧ ∀ (s : RawStore) (c : InsertCall),
      (callPair c ∈ s.rows.map pairOf →
        s.insert c.title c.url c.summary c.source c.fetched_at = (none, s))
      ∧ (callPair c ∉ s.rows.map pairOf →
        (s.insert c.title c.url c.summary c.source c.fetched_at).1 = some s.nextId
        ∧ (s.insert c.title c.url c.summary c.source c.fetched_at).2.rows
          = s.rows ++ [⟨s.nextId, c.title, c.url, c.summary, c.source, c.fetched_at⟩]) := by
  constructor
  · constructor
    · exact (applyInserts_spec calls RawStore.empty).2 (by simp [RawStore.empty])
    · intro p
      rw [(applyInserts_spec calls RawStore.empty).1 p]
      simp [RawStore.empty]
  · intro s c
    constructor
    · intro hmem
      unfold RawStore.insert
      rw [if_pos ((insert_dup_iff s c.source c.url).2 hmem)]
    · intro hmem
      unfold RawStore.insert
      rw [if_neg (fun hd => hmem ((insert_dup_iff s c.source c.url).1 hd))]
      exact ⟨rfl, rfl⟩

/-- The first insert call of the C2 witness scenario. -/
def c2CallA : InsertCall := ⟨"T1", "http://x/1", "S1", "arxiv", "2024-01-01T00:00:00Z"⟩

/-- A second insert call with the same (source, url) pair. -/
def c2CallB : InsertCall := ⟨"T2", "http://x/1", "S2", "arxiv", "2024-01-02T00:00:00Z"⟩

/-- The store after the first C2 insert. -/
def c2Store : RawStore := insertStep RawStore.empty c2CallA

/-- Witness for C2 at a concrete input: after inserting the same
(source, url) pair twice, the stored pairs are distinct (one row for the
pair), and the duplicate insert returned `None` leaving the store as it
was. -/
theorem C2_raw_insert_dedup_witness :
    ((applyInserts RawStore.empty [c2CallA, c2CallB]).rows.map pairOf).Nodup
    ∧ c2Store.insert c2CallB.title c2CallB.url c2CallB.summary c2CallB.source
        c2CallB.fetched_at = (none, c2Store) := by
  constructor
  · exact (C2_raw_insert_dedup [c2CallA, c2CallB]).1.1
  · exact ((C2_raw_insert_dedup []).2 c2Store c2CallB).1 (by
      simp [c2Store, insertStep, c2CallA, c2CallB, RawStore.insert, RawStore.empty,
        pairOf, callPair])

/-- Every list is a contiguous substring of itself. -/
theorem isSub_refl (l : List Char) : IsSub l l := ⟨[], [], by simp⟩

/-- Contiguous substrings compose. -/
theorem isSub_trans {a b c : List Char} (hab : IsSub a b) (hbc : IsSub b c) : IsSub a c := by
  obtain ⟨x₁, x₂, hx⟩ := hab
  obtain ⟨y₁, y₂, hy⟩ := hbc
  exact ⟨y₁ ++ x₁, x₂ ++ y₂, by subst hx hy; simp⟩

/-- Lemma that `dropWhile` removes a leading block. -/
theorem exists_eq_append_dropWhile (p : Char → Bool) :
    ∀ l : List Char, ∃ l₁, l = l₁ ++ l.dropWhile p
  | [] => ⟨[], rfl⟩
  | c :: cs => by
    by_cases h : p c = true
    · obtain ⟨l₁, hl₁⟩ := exists_eq_append_dropWhile p cs
      refine ⟨c :: l₁, ?_⟩
      rw [List.dropWhile_cons_of_pos h]
      simpa using hl₁
    · exact ⟨[], by rw [List.dropWhile_cons_of_neg h]; rfl⟩

/-- Python `strip()` yields a contiguous substring. -/
theorem isSub_stripWS (l : List Char) : IsSub (stripWS l) l := by
  obtain ⟨a, ha⟩ := exists_eq_append_dropWhile isPySpace l
  obtain ⟨b, hb⟩ := exists_eq_append_dropWhile isPySpace (l.dropWhile isPySpace).reverse
  refine ⟨a, b.reverse, ?_⟩
  have hm : l.dropWhile isPySpace
      = ((l.dropWhile isPySpace).reverse.dropWhile isPySpace).reverse ++ b.reverse := by
    have := congrArg List.reverse hb
    simpa using this
  rw [stripWS]
  calc l = a ++ l.dropWhile isPySpace := ha
    _ = a ++ (((l.dropWhile isPySpace).reverse.dropWhile isPySpace).reverse ++ b.reverse) := by
          rw [← hm]
    _ = a ++ ((l.dropWhile isPySpace).reverse.dropWhile isPySpace).reverse ++ b.reverse := by
          simp

/-- A `take` of a `drop` is a contiguous substring. -/
theorem isSub_take_drop (l : List Char) (i j : Nat) : IsSub ((l.drop i).take j) l :=
  ⟨l.take i, (l.drop i).drop j, by rw [List.append_assoc, List.take_append_drop,
    List.take_append_drop]⟩

/-- A `drop` is a contiguous substring. -/
theorem isSub_drop (l : List Char) (i : Nat) : IsSub (l.drop i) l :=
  ⟨l.take i, [], by rw [List.append_nil, List.take_append_drop]⟩

/-- A `take` is a contiguous substring. -/
theorem isSub_take (l : List Char) (i : Nat) : IsSub (l.take i) l :=
  ⟨[], l.drop i, by rw [List.nil_append, List.take_append_drop]⟩

/-- Every fragment produced by the fueled splitter is a contiguous
substring of the input. -/
theorem isSub_splitSepFuel (sep : List Char) :
    ∀ (fuel : Nat) (l p : List Char), p ∈ splitSepFuel sep fuel l → IsSub p l
  | 0, l, p, hp => by
    simp [splitSepFuel] at hp
    exact hp ▸ isSub_refl l
  | fuel + 1, l, p, hp => by
    rw [splitSepFuel] at hp
    cases hfind : findSub sep l with
    | none =>
      rw [hfind] at hp
      simp at hp
      exact hp ▸ isSub_refl l
    | some i =>
      rw [hfind] at hp
      rcases List.mem_cons.1 hp with h | h
      · exact h ▸ isSub_take l i
      · exact isSub_trans (isSub_splitSepFuel sep fuel _ p h) (isSub_drop l (i + sep.length))

/-- Every fragment of `splitSep` is a contiguous substring of the input. -/
theorem isSub_splitSep (sep l p : List Char) (hp : p ∈ splitSep sep l) : IsSub p l :=
  isSub_splitSepFuel sep (l.length + 1) l p hp

/-- The working text of `_parse_llm_response` is a contiguous substring
of the input text. -/
theorem isSub_llmWorkingText (s₀ : List Char) : IsSub (llmWorkingText s₀) s₀ := by
  unfold llmWorkingText
  by_cases hf : hasSub fenceMarker (stripWS s₀) = true
  · rw [if_pos hf]
    cases hfind : (splitSep fenceMarker (stripWS s₀)).find?
        (fun p => hasSub ('{' :: []) p && hasSub ("opportunities".data) p) with
    | none => exact isSub_stripWS s₀
    | some p =>
      have hmem := List.mem_of_find?_eq_some hfind
      exact isSub_trans (isSub_trans (isSub_stripWS p)
        (isSub_splitSep fenceMarker (stripWS s₀) p hmem)) (isSub_stripWS s₀)
  · rw [if_neg hf]
    exact isSub_stripWS s₀

/-- When every contiguous substring of the working text fails to parse
as JSON, the balanced-brace attempt fails. -/
theorem braceAttempt_none (text : List Char)
    (H : ∀ sub, IsSub sub text → jsonLoadsChars sub = none) :
    braceAttempt text = none := by
  unfold braceAttempt
  cases hfind : findSub ('{' :: []) text with
  | none => rfl
  | some start =>
    show (match braceSliceLen (text.drop start) 0 with
      | none => none
      | some n => jsonLoadsChars ((text.drop start).take n)) = none
    cases hscan : braceSliceLen (text.drop start) 0 with
    | none => rfl
    | some n => exact H _ (isSub_take_drop text start n)

/-- Bounded executable check that no contiguous substring of `l` parses
as a JSON document. -/
def noJsonSubB (l : List Char) : Bool :=
  (List.range (l.length + 1)).all fun i =>
    (List.range (l.length + 1)).all fun j =>
      (jsonLoadsChars ((l.drop i).take j)).isNone

/-- Soundness of the bounded check: it covers every contiguous
substring. -/
theorem noJsonSubB_correct (l : List Char) (h : noJsonSubB l = true) :
    ∀ sub, IsSub sub l → jsonLoadsChars sub = none := by
  intro sub hsub
  obtain ⟨l₁, l₂, hl⟩ := hsub
  have hi : l₁.length < l.length + 1 := by
    subst hl
    simp
    omega
  have hj : sub.length < l.length + 1 := by
    subst hl
    simp
    omega
  have h₁ := (List.all_eq_true.1 h) l₁.length (List.mem_range.2 hi)
  have h₂ := (List.all_eq_true.1 h₁) sub.length (List.mem_range.2 hj)
  have hslice : (l.drop l₁.length).take sub.length = sub := by
    subst hl
    rw [List.append_assoc, List.drop_left, List.take_left]
  rw [hslice] at h₂
  exact Option.isNone_iff_eq_none.1 h₂

/-- C3 counterexample: on the input `"hello"` every JSON parsing attempt
fails (no substring parses), yet the extraction function does not return
the empty mapping — it returns the three-key default mapping. -/
theorem C3_counterexample_not_empty_mapping :
    (∀ sub, IsSub sub ("hello".data) → jsonLoadsChars sub = none)
    ∧ parseLlmResponse "hello" ≠ Json.obj [] := by
  constructor
  · exact noJsonSubB_correct _ (by decide)
  · intro h
    rw [show parseLlmResponse "hello" = defaultLlmJson from rfl] at h
    simp [defaultLlmJson] at h

/-- C3 (amended): on every input on which every JSON parsing attempt of
the extraction function fails — in particular when no contiguous
substring of the text parses as JSON — the function returns, without
raising, the fixed default mapping whose three keys (opportunities,
directions, innovations) are each bound to an empty list. -/
theorem C3_all_attempts_fail_default (s : String)
    (H : ∀ sub, IsSub sub s.data → jsonLoadsChars sub = none) :
    parseLlmResponse s = defaultLlmJson := by
  unfold parseLlmResponse parseLlmResponseChars
  have H' : ∀ sub, IsSub sub (llmWorkingText s.data) → jsonLoadsChars sub = none :=
    fun sub h => H sub (isSub_trans h (isSub_llmWorkingText s.data))
  rw [braceAttempt_none _ H', H' _ (isSub_refl _)]

/-- Witness for the amended C3 at a concrete input. -/
theorem C3_all_attempts_fail_default_witness :
    parseLlmResponse "say something" = defaultLlmJson :=
  C3_all_attempts_fail_default "say something" (noJsonSubB_correct _ (by decide))

/-- Sorting by descending key and taking a cap: the result is sorted,
its length is the cap bounded by the population, it is a prefix of a
sorted permutation of the population, and every dropped element's key is
at most every kept element's key. -/
theorem sortedTake_spec (key : α → String) (l : List α) (limit : Nat) :
    ((l.insertionSort (descBy key)).take limit).Pairwise (descBy key)
    ∧ ((l.insertionSort (descBy key)).take limit).length = min limit l.length
    ∧ (l.insertionSort (descBy key)).Perm l
    ∧ (l.insertionSort (descBy key)).Pairwise (descBy key)
    ∧ ∀ x ∈ (l.insertionSort (descBy key)).drop limit,
        ∀ y ∈ (l.insertionSort (descBy key)).take limit,
        strLe (key x) (key y) = true := by
  have hsorted : (l.insertionSort (descBy key)).Pairwise (descBy key) :=
    List.sorted_insertionSort (descBy key) l
  have hperm := List.perm_insertionSort (descBy key) l
  refine ⟨List.Pairwise.sublist (List.take_sublist limit _) hsorted, ?_, hperm, hsorted, ?_⟩
  · rw [List.length_take, hperm.length_eq]
  · have hsplit := List.take_append_drop limit (l.insertionSort (descBy key))
    have h := List.pairwise_append.1 (hsplit ▸ hsorted)
    intro x hx y hy
    exact h.2.2 y hy x hx

/-- An empty lower bound filters nothing. -/
theorem filter_strLe_empty (rows : List RawItem) :
    rows.filter (fun r => strLe "" r.fetched_at) = rows :=
  List.filter_eq_self.2 (fun _ _ => rfl)

/-- C6: `list_since` with `since_iso` omitted returns the `limit` most
recently fetched rows in descending `fetched_at` order (a prefix of a
descending-sorted permutation of the whole table, with every omitted row
no newer than every returned one); with a `since_iso` supplied it
returns only rows fetched at or after it, still capped at `limit` and
still newest-first, the same prefix property now relative to the
qualifying rows. -/
theorem C6_list_since_spec (s : RawStore) (limit : Nat) :
    ((s.list_since none limit).Pairwise (descBy RawItem.fetched_at)
      ∧ (s.list_since none limit).length = min limit s.rows.length
      ∧ ∃ full : List RawItem, full.Perm s.rows
          ∧ full.Pairwise (descBy RawItem.fetched_at)
          ∧ s.list_since none limit = full.take limit
          ∧ ∀ x ∈ full.drop limit, ∀ y ∈ full.take limit,
              strLe x.fetched_at y.fetched_at = true)
    ∧ ∀ t : String,
        (s.list_since (some t) limit).Pairwise (descBy RawItem.fetched_at)
        ∧ (∀ x ∈ s.list_since (some t) limit, strLe t x.fetched_at = true)
        ∧ (s.list_since (some t) limit).length
            = min limit (s.rows.filter (fun r => strLe t r.fetched_at)).length
        ∧ ∃ full : List RawItem,
            full.Perm (s.rows.filter (fun r => strLe t r.fetched_at))
            ∧ full.Pairwise (descBy RawItem.fetched_at)
            ∧ s.list_since (some t) limit = full.take limit
            ∧ ∀ x ∈ full.drop limit, ∀ y ∈ full.take limit,
                strLe x.fetched_at y.fetched_at = true := by
  constructor
  · have h := sortedTake_spec RawItem.fetched_at s.rows limit
    have hdef : s.list_since none limit
        = (s.rows.insertionSort (descBy RawItem.fetched_at)).take limit := rfl
    rw [hdef]
    exact ⟨h.1, h.2.1, _, h.2.2.1, h.2.2.2.1, rfl, h.2.2.2.2⟩
  · intro t
    by_cases ht : t = ""
    · subst ht
      have h := sortedTake_spec RawItem.fetched_at s.rows limit
      have hdef : s.list_since (some "") limit
          = (s.rows.insertionSort (descBy RawItem.fetched_at)).take limit := rfl
      rw [hdef, filter_strLe_empty]
      refine ⟨h.1, fun x _ => rfl, ?_, _, h.2.2.1, h.2.2.2.1, rfl, h.2.2.2.2⟩
      rw [h.2.1]
    · have h := sortedTake_spec RawItem.fetched_at
        (s.rows.filter (fun r => strLe t r.fetched_at)) limit
      have htr : pyTruthyStr (some t) = true := by
        simp [pyTruthyStr, ht]
      have hdef : s.list_since (some t) limit
          = ((s.rows.filter (fun r => strLe t r.fetched_at)).insertionSort
              (descBy RawItem.fetched_at)).take limit := by
        unfold RawStore.list_since
        rw [htr]
        rfl
      rw [hdef]
      refine ⟨h.1, ?_, h.2.1, _, h.2.2.1, h.2.2.2.1, rfl, h.2.2.2.2⟩
      intro x hx
      have hx₁ : x ∈ (s.rows.filter (fun r => strLe t r.fetched_at)).insertionSort
          (descBy RawItem.fetched_at) := List.mem_of_mem_take hx
      have hx₂ : x ∈ s.rows.filter (fun r => strLe t r.fetched_at) :=
        (h.2.2.1.mem_iff).1 hx₁
      exact (List.mem_filter.1 hx₂).2

/-- The raw store of the C6 witness scenario: three rows with strictly
increasing timestamps. -/
def c6Store : RawStore :=
  ((((RawStore.empty.insert "T1" "http://x/1" "S1" "arxiv"
    "2024-01-01T00:00:00Z").2.insert "T2" "http://x/2" "S2" "arxiv"
    "2024-01-02T00:00:00Z").2.insert "T3" "http://x/3" "S3" "arxiv"
    "2024-01-03T00:00:00Z").2)

/-- The most recent row of the C6 witness store. -/
def c6Item3 : RawItem := ⟨3, "T3", "http://x/3", "S3", "arxiv", "2024-01-03T00:00:00Z"⟩

/-- Witness for C6 at a concrete input: in a three-row store the
two-row listing since `2024-01-02` contains the most recent row, every
listed row is at or after the bound, and the unfiltered two-row listing
has exactly two rows. -/
theorem C6_list_since_spec_witness :
    strLe "2024-01-02T00:00:00Z" c6Item3.fetched_at = true
    ∧ (c6Store.list_since none 2).length = 2 := by
  constructor
  · exact (((C6_list_since_spec c6Store 2).2 "2024-01-02T00:00:00Z").2.1) c6Item3 (by decide)
  · have h := (C6_list_since_spec c6Store 2).1.2.1
    simpa using h

/-- Every message produced by the send loop carries the one rendered
subject, sender and body: messages differ only in their recipient. -/
theorem sendLoop_shape (ts : Transport) (subject sender body : String) :
    ∀ (recipients : List String), ∀ m ∈ (sendLoop ts subject sender body recipients).2,
      m.subject = subject ∧ m.sender = sender ∧ m.body = body
  | [], m, hm => by simp [sendLoop] at hm
  | rcpt :: rest, m, hm => by
    simp only [sendLoop] at hm
    by_cases h : ts.sendOk rcpt = true
    · rw [if_pos h] at hm
      rcases List.mem_cons.1 hm with h₁ | h₁
      · subst h₁
        exact ⟨rfl, rfl, rfl⟩
      · exact sendLoop_shape ts subject sender body rest m h₁
    · rw [if_neg h] at hm
      rcases List.mem_cons.1 hm with h₁ | h₁
      · subst h₁
        exact ⟨rfl, rfl, rfl⟩
      · simp at h₁
/-- When every send succeeds, the loop reports success and sends to each
recipient in order, one message each. -/
theorem sendLoop_all_ok (ts : Transport) (subject sender body : String) :
    ∀ (recipients : List String), (∀ x ∈ recipients, ts.sendOk x = true) →
    sendLoop ts subject sender body recipients
      = (true, recipients.map (fun x => ⟨subject, sender, x, body⟩))
  | [], _ => by simp [sendLoop]
  | rcpt :: rest, h => by
    have hr : ts.sendOk rcpt = true := h rcpt (List.mem_cons_self rcpt rest)
    have ih := sendLoop_all_ok ts subject sender body rest
      (fun x hx => h x (List.mem_cons_of_mem rcpt hx))
    simp [sendLoop, hr, ih]

/-- The first failing send aborts the loop: the messages attempted are
exactly those to the earlier recipients plus the failing one, and the
loop reports failure. -/
theorem sendLoop_first_fail (ts : Transport) (subject sender body : String) :
    ∀ (pre : List String) (r : String) (post : List String),
    (∀ x ∈ pre, ts.sendOk x = true) → ts.sendOk r = false →
    sendLoop ts subject sender body (pre ++ r :: post)
      = (false, (pre ++ [r]).map (fun x => ⟨subject, sender, x, body⟩))
  | [], r, post, _, hr => by simp [sendLoop, hr]
  | p :: pre, r, post, hpre, hr => by
    have hp : ts.sendOk p = true := hpre p (List.mem_cons_self p pre)
    have ih := sendLoop_first_fail ts subject sender body pre r post
      (fun x hx => hpre x (List.mem_cons_of_mem p hx)) hr
    simp [sendLoop, hp, ih]

/-- Projecting the recipient back out of the per-recipient messages
recovers the recipient list. -/
theorem map_recipient_mk (subject sender body : String) (l : List String) :
    (l.map (fun x => (⟨subject, sender, x, body⟩ : SentMsg))).map SentMsg.recipient = l := by
  induction l with
  | nil => rfl
  | cons a l ih => simp [ih]

/-- C7: with host, user and password present, at least two configured
recipients, a non-empty insight listing, and a transport that connects,
upgrades and logs in, `deliver` reaches the per-recipient loop: all
attempted messages agree on subject, sender and rendered body (differing
only in recipient); if every send succeeds it performs exactly one send
per recipient, in order, and returns success; and if a send raises after
the earlier ones succeeded, the remaining sends are skipped and
`deliver` returns `false` rather than raising. -/
theorem C7_email_multi_recipient (env : EmailEnv) (insight_store : InsightStore)
    (cfg : EmailConfig) (raw_store : Option RawStore) (ts : Transport)
    (hcred : (pyTruthyStr (pyOrStr env.smtp_host cfg.smtp_host)
        && pyTruthyStr (pyOrStr env.smtp_user cfg.smtp_user)
        && pyTruthyStr (pyOrStr env.smtp_password cfg.smtp_password)) = true)
    (hrec : 2 ≤ (effectiveRecipients env cfg).length)
    (hins : (effectiveInsights cfg insight_store).isEmpty = false)
    (hconn : ts.connectOk = true) (htls : ts.startTlsOk = true)
    (hlogin : ts.loginOk = true) :
    (∀ m₁ ∈ (EmailDeliveryPlugin.deliver env insight_store cfg raw_store ts).sent,
     ∀ m₂ ∈ (EmailDeliveryPlugin.deliver env insight_store cfg raw_store ts).sent,
      m₁.subject = m₂.subject ∧ m₁.sender = m₂.sender ∧ m₁.body = m₂.body)
    ∧ ((∀ x ∈ effectiveRecipients env cfg, ts.sendOk x = true) →
        (EmailDeliveryPlugin.deliver env insight_store cfg raw_store ts).ok = true
        ∧ (EmailDeliveryPlugin.deliver env insight_store cfg raw_store ts).sent.map
            SentMsg.recipient = effectiveRecipients env cfg)
    ∧ (∀ (pre : List String) (r : String) (post : List String),
        effectiveRecipients env cfg = pre ++ r :: post →
        (∀ x ∈ pre, ts.sendOk x = true) → ts.sendOk r = false →
        (EmailDeliveryPlugin.deliver env insight_store cfg raw_store ts).ok = false
        ∧ (EmailDeliveryPlugin.deliver env insight_store cfg raw_store ts).sent.map
            SentMsg.recipient = pre ++ [r]) := by
  have hne : (effectiveRecipients env cfg).isEmpty = false := by
    cases h' : effectiveRecipients env cfg with
    | nil =>
      rw [h'] at hrec
      simp at hrec
    | cons a l => rfl
  have hdel : EmailDeliveryPlugin.deliver env insight_store cfg raw_store ts
      = ⟨(sendLoop ts (effectiveSubject cfg insight_store) (effectiveSender env cfg)
            (effectiveBody cfg insight_store raw_store) (effectiveRecipients env cfg)).1,
         (sendLoop ts (effectiveSubject cfg insight_store) (effectiveSender env cfg)
            (effectiveBody cfg insight_store raw_store) (effectiveRecipients env cfg)).2,
         true⟩ := by
    unfold EmailDeliveryPlugin.deliver
    simp [hcred, hne, hins, hconn, htls, hlogin]
  refine ⟨?_, ?_, ?_⟩
  · intro m₁ hm₁ m₂ hm₂
    rw [hdel] at hm₁ hm₂
    have h₁ := sendLoop_shape ts _ _ _ _ m₁ hm₁
    have h₂ := sendLoop_shape ts _ _ _ _ m₂ hm₂
    exact ⟨h₁.1.trans h₂.1.symm, h₁.2.1.trans h₂.2.1.symm, h₁.2.2.trans h₂.2.2.symm⟩
  · intro hall
    rw [hdel, sendLoop_all_ok ts _ _ _ _ hall]
    exact ⟨rfl, map_recipient_mk _ _ _ _⟩
  · intro pre r post heq hpre hr
    rw [hdel, heq, sendLoop_first_fail ts _ _ _ pre r post hpre hr]
    exact ⟨rfl, map_recipient_mk _ _ _ _⟩

/-- The environment of the C7/C10 witness scenarios: full credentials
and a two-address recipient list. -/
def c7Env : EmailEnv :=
  ⟨some "smtp.example.com", none, some "user", some "pw", none,
   some "a@x.com, b@x.com"⟩

/-- An empty plugin configuration (everything from the environment). -/
def c7Cfg : EmailConfig := ⟨none, none, none, none, none, RecipSetting.absent, none, none⟩

/-- One stored insight for the C7 witness. -/
def c7Istore : InsightStore :=
  (InsightStore.empty.insert 1 (Json.obj [("summary".data, Json.str ("s".data))])
    "2024-01-02T00:00:00Z").2

/-- A transport whose send to the second address raises. -/
def c7Ts : Transport := ⟨true, true, true, fun r => r == "a@x.com"⟩

/-- Witness for C7 at a concrete input: with two recipients and the
second send raising, `deliver` attempts exactly the first two sends and
returns `false`. -/
theorem C7_email_multi_recipient_witness :
    (EmailDeliveryPlugin.deliver c7Env c7Istore c7Cfg none c7Ts).ok = false
    ∧ (EmailDeliveryPlugin.deliver c7Env c7Istore c7Cfg none c7Ts).sent.map
        SentMsg.recipient = ["a@x.com", "b@x.com"] := by
  exact (C7_email_multi_recipient c7Env c7Istore c7Cfg none c7Ts (by decide) (by decide)
      (by decide) rfl rfl rfl).2.2 ["a@x.com"] "b@x.com" [] (by decide) (by decide) rfl

/-- C10: with credentials and recipients correctly configured but zero
insights stored, `deliver` returns `true`, attempts no send, and never
touches the transport. -/
theorem C10_no_insights_no_transmission (env : EmailEnv) (insight_store : InsightStore)
    (cfg : EmailConfig) (raw_store : Option RawStore) (ts : Transport)
    (hcred : (pyTruthyStr (pyOrStr env.smtp_host cfg.smtp_host)
        && pyTruthyStr (pyOrStr env.smtp_user cfg.smtp_user)
        && pyTruthyStr (pyOrStr env.smtp_password cfg.smtp_password)) = true)
    (hrec : (effectiveRecipients env cfg).isEmpty = false)
    (hempty : insight_store.rows = []) :
    (EmailDeliveryPlugin.deliver env insight_store cfg raw_store ts).ok = true
    ∧ (EmailDeliveryPlugin.deliver env insight_store cfg raw_store ts).sent = []
    ∧ (EmailDeliveryPlugin.deliver env insight_store cfg raw_store ts).connectAttempted
        = false := by
  have hins : (effectiveInsights cfg insight_store).isEmpty = true := by
    simp [effectiveInsights, InsightStore.list_since, hempty, pyTruthyStr]
  have hdel : EmailDeliveryPlugin.deliver env insight_store cfg raw_store ts
      = ⟨true, [], false⟩ := by
    unfold EmailDeliveryPlugin.deliver
    simp [hcred, hrec, hins]
  rw [hdel]
  exact ⟨rfl, rfl, rfl⟩

/-- The empty insight store of the C10 witness. -/
def c10Istore : InsightStore := InsightStore.empty

/-- Witness for C10 at a concrete input: correctly configured plugin,
empty store — success with no connection and no sends. -/
theorem C10_no_insights_no_transmission_witness :
    (EmailDeliveryPlugin.deliver c7Env c10Istore c7Cfg none c7Ts).ok = true
    ∧ (EmailDeliveryPlugin.deliver c7Env c10Istore c7Cfg none c7Ts).sent = []
    ∧ (EmailDeliveryPlugin.deliver c7Env c10Istore c7Cfg none c7Ts).connectAttempted
        = false :=
  C10_no_insights_no_transmission c7Env c10Istore c7Cfg none c7Ts (by decide) (by decide) rfl

end DailyInsight
